import Mathlib

/-!
Shallow embedding of the tiered memory consolidation engine of
`scripts/memory/` (`types.py`, `active.py`, `short_term.py`, `mid_term.py`,
`long_term.py`, `archive.py`, `__init__.py`).

Modelling conventions:
* Python floats (timestamps, salience, expiry) are rationals `ℚ`.
* Each persisted collection is the in-memory list the source keeps
  (Short-Term `entries`, Long-Term `entries`, the archive log, the SQLite
  `mid_term` table as a list of rows carrying their AUTOINCREMENT ids).
* File I/O is modelled by its effect on those collections; the
  `try/except: pass` wrappers around saves make a successful and a failed
  save indistinguishable, which is modelled explicitly for `ShortTermMemory.add`.
* External collaborators (`generate_response`, `json.loads` restricted to
  the dict-or-nothing outcome the coordinator keeps, `datetime.fromisoformat`,
  the curiosity engine) are parameters bundled in `Externals`.
* The coordinator module contains unresolved merge-conflict remnants; the
  embedded definitions follow the `main`-branch lines, which are the ones
  all cited line ranges fall in.
-/

/-- `scripts/memory/types.py`: the `MemoryPacket` dataclass. -/
structure MemoryPacket where
  timestamp : ℚ
  text : String
  participants : List String
  tags : List String
  salience : ℚ
  expiry : Option ℚ
deriving DecidableEq, Repr

/-- `MemoryPacket.create`: `time.time()` is passed explicitly as `now`. -/
def MemoryPacket.create (now : ℚ) (text : String) (participants : List String)
    (tags : List String) (salience : ℚ) (expiry : Option ℚ) : MemoryPacket :=
  ⟨now, text, participants, tags, salience, expiry⟩

/-- Python truthiness of an `Optional[float]`: `None` and `0.0` are falsy,
any other float is truthy.  This is the test `if packet.expiry:` performs. -/
def pyTruthy : Option ℚ → Bool
  | none => false
  | some x => x != 0

/-- Python `x or d` for an optional string result: `None` and the empty
string fall back to the default. -/
def pyOrStr (x : Option String) (d : String) : String :=
  match x with
  | none => d
  | some s => if s = "" then d else s

/-! ## Active Memory (`scripts/memory/active.py`) -/

/-- `ActiveMemory`: a `deque(maxlen=...)` of packets. -/
structure ActiveMemory where
  maxlen : ℕ
  buffer : List MemoryPacket
deriving DecidableEq, Repr

/-- The `ActiveMemory()` constructor: empty deque, default `maxlen = 20`. -/
def ActiveMemory.init (maxlen : ℕ := 20) : ActiveMemory :=
  ⟨maxlen, []⟩

/-- `push`: `deque.append` with a `maxlen` keeps only the `maxlen` most
recently appended elements, silently dropping from the old end. -/
def ActiveMemory.push (st : ActiveMemory) (p : MemoryPacket) : ActiveMemory :=
  let b := st.buffer ++ [p]
  ⟨st.maxlen, b.drop (b.length - st.maxlen)⟩

/-- `snapshot`: the current contents, most-recent-last. -/
def ActiveMemory.snapshot (st : ActiveMemory) : List MemoryPacket :=
  st.buffer

/-- Pushing a whole sequence of packets in order. -/
def ActiveMemory.pushAll (st : ActiveMemory) (ps : List MemoryPacket) : ActiveMemory :=
  ps.foldl ActiveMemory.push st

/-! ## Short-Term Memory (`scripts/memory/short_term.py`) -/

/-- `add`: append the packet to `entries` (the `_save` call swallows any
I/O failure, so the collection state is the same either way). -/
def ShortTermMemory.add (entries : List MemoryPacket) (p : MemoryPacket) :
    List MemoryPacket :=
  entries ++ [p]

/-- `prune`: entries with `timestamp < now - 24*3600` are returned, and (only
when some exist, matching the `if old:` guard) removed from the store.
Result: `(old, remaining entries)`. -/
def ShortTermMemory.prune (now : ℚ) (entries : List MemoryPacket) :
    List MemoryPacket × List MemoryPacket :=
  let cutoff := now - 24 * 3600
  let old := entries.filter (fun p => decide (p.timestamp < cutoff))
  if old = [] then (old, entries)
  else (old, entries.filter (fun p => decide (cutoff ≤ p.timestamp)))

/-- `_save` as the source wraps it: the outcome of the underlying write
(`saveOutcome`) is caught by `except Exception: pass`, leaving `Unit`. -/
def ShortTermMemory.saveSwallowed
    (saveOutcome : List MemoryPacket → Except String Unit)
    (entries : List MemoryPacket) : Unit :=
  match saveOutcome entries with
  | Except.ok _ => ()
  | Except.error _ => ()

/-- `add` with the persistence outcome made explicit: the entry is appended,
`_save` runs, and the pair `(new entries, returned value)` is everything the
caller can observe.  The source returns `None`, i.e. `Unit`. -/
def ShortTermMemory.addWithSave
    (saveOutcome : List MemoryPacket → Except String Unit)
    (entries : List MemoryPacket) (p : MemoryPacket) :
    List MemoryPacket × Unit :=
  let entries2 := entries ++ [p]
  (entries2, ShortTermMemory.saveSwallowed saveOutcome entries2)

/-! ## Mid-Term Memory (`scripts/memory/mid_term.py`) -/

/-- One row of the SQLite `mid_term` table: AUTOINCREMENT id, packet JSON,
expiry. -/
structure MidRow where
  rowId : ℕ
  data : MemoryPacket
  expiry : ℚ
deriving DecidableEq, Repr

/-- The `mid_term` table plus the next AUTOINCREMENT id. -/
structure MidTermMemory where
  rows : List MidRow
  nextId : ℕ
deriving DecidableEq, Repr

/-- `add`: `INSERT INTO mid_term(data, expiry) VALUES (?, ?)`. -/
def MidTermMemory.add (st : MidTermMemory) (p : MemoryPacket) (expiry : ℚ) :
    MidTermMemory :=
  ⟨st.rows ++ [⟨st.nextId, p, expiry⟩], st.nextId + 1⟩

/-- `fetch_active`: `SELECT data FROM mid_term WHERE expiry > now`. -/
def MidTermMemory.fetchActive (now : ℚ) (st : MidTermMemory) : List MemoryPacket :=
  (st.rows.filter (fun r => decide (now < r.expiry))).map MidRow.data

/-- `sweep`: select the rows with `expiry <= now`, delete exactly those row
ids, and return the selected packets. -/
def MidTermMemory.sweep (now : ℚ) (st : MidTermMemory) :
    List MemoryPacket × MidTermMemory :=
  let hits := st.rows.filter (fun r => decide (r.expiry ≤ now))
  let ids := hits.map MidRow.rowId
  let packets := hits.map MidRow.data
  (packets, ⟨st.rows.filter (fun r => decide (r.rowId ∉ ids)), st.nextId⟩)

/-! ## Long-Term Memory (`scripts/memory/long_term.py`)

Long-term entries are the packet-shaped dicts the source stores, so they are
modelled by `MemoryPacket` directly. -/

/-- `reinforce`: scan for the first entry whose `text` equals the packet's;
bump its salience by `0.1` clamped at `1.0`, or append the packet's record
at the end when no entry matches. -/
def LongTermMemory.reinforce (entries : List MemoryPacket) (p : MemoryPacket) :
    List MemoryPacket :=
  match entries with
  | [] => [p]
  | e :: rest =>
      if e.text = p.text then
        { e with salience := min 1 (e.salience + 1/10) } :: rest
      else
        e :: LongTermMemory.reinforce rest p

/-- The per-entry effect of one `decay` pass: `salience *= 0.99`. -/
def LongTermMemory.decayEntry (e : MemoryPacket) : MemoryPacket :=
  { e with salience := e.salience * (99/100) }

/-- `decay`: multiply every salience by `0.99`, keep entries at or above the
threshold, and return `(kept, archived)` where `archived` are the entries
that fell below (both in original order). -/
def LongTermMemory.decay (entries : List MemoryPacket) (threshold : ℚ) :
    List MemoryPacket × List MemoryPacket :=
  match entries with
  | [] => ([], [])
  | e :: rest =>
      let e2 := LongTermMemory.decayEntry e
      let tail := LongTermMemory.decay rest threshold
      if e2.salience < threshold then (tail.1, e2 :: tail.2)
      else (e2 :: tail.1, tail.2)

/-- Python `needle in hay` on lists of characters (substring containment). -/
def infixOf (needle hay : List Char) : Bool :=
  match hay with
  | [] => needle.isEmpty
  | c :: t => needle.isPrefixOf (c :: t) || infixOf needle t

/-- `query`'s match test: `text.lower() in entry_text.lower()`. -/
def strContains (hay needle : String) : Bool :=
  infixOf needle.toLower.data hay.toLower.data

/-- `query(text)`: entries whose stored text contains `text`;
case-insensitive substring match. -/
def LongTermMemory.query (entries : List MemoryPacket) (text : String) :
    List MemoryPacket :=
  entries.filter (fun e => strContains e.text text)

/-! ## Archive Memory (`scripts/memory/archive.py`) -/

/-- `store`: append the packets to the compressed JSONL log. -/
def ArchiveMemory.store (log : List MemoryPacket) (ps : List MemoryPacket) :
    List MemoryPacket :=
  log ++ ps

/-- `purge_old_memories`: stream the log into a fresh file, dropping exactly
the records that are BOTH older than `age_threshold_days` AND below
`salience_threshold` (`datetime.utcfromtimestamp(ts) < utcnow() - days`
is `ts < now - days*86400` on epoch seconds). -/
def ArchiveMemory.purgeOldMemories (now : ℚ) (ageThresholdDays : ℕ)
    (salienceThreshold : ℚ) (log : List MemoryPacket) : List MemoryPacket :=
  match log with
  | [] => []
  | r :: rest =>
      let keptRest :=
        ArchiveMemory.purgeOldMemories now ageThresholdDays salienceThreshold rest
      if r.timestamp < now - (ageThresholdDays : ℚ) * 86400 ∧
          r.salience < salienceThreshold then
        keptRest
      else
        r :: keptRest

/-! ## Memory Coordinator (`scripts/memory/__init__.py`) -/

/-- A calendar event dict as written by `PersonalCalendar.add_event`:
owner calendar, date (YYYY-MM-DD), start/end times, title, description. -/
structure CalEvent where
  owner : String
  date : String
  start : String
  endTime : String
  title : String
  description : String
deriving DecidableEq, Repr

/-- The dict the coordinator keeps from `json.loads(event_json)` when it is
a dict: optional `title`, `date`, `time` keys read with `.get(...)`. -/
structure EventData where
  titleOpt : Option String
  dateOpt : Option String
  timeOpt : Option String
deriving DecidableEq, Repr

/-- External collaborators and ambient time consumed by the coordinator:
`generate_response` (`gen`, returning nothing when unavailable),
`json.loads` restricted to the dict-or-nothing outcome (`jsonDict`),
`datetime.fromisoformat` on `date + "T" + time + ":00"` as an epoch
timestamp (`parseIso`, nothing on parse failure), the curiosity engine
(`maybeAsk`), the clock `now` and the formatted `today`/`yesterday` dates. -/
structure Externals where
  gen : String → Option String
  jsonDict : String → Option EventData
  parseIso : String → Option ℚ
  maybeAsk : CalEvent → Option String
  now : ℚ
  today : String
  yesterday : String

/-- The per-user mutable state owned by one `MemoryCoordinator`. -/
structure CoordinatorState where
  active : ActiveMemory
  short : List MemoryPacket
  mid : MidTermMemory
  long : List MemoryPacket
  archive : List MemoryPacket
  calendar : List CalEvent
  lastSummary : Option String
deriving DecidableEq, Repr

/-- `add_packet`: fan out one packet — always into Active and Short-Term,
into Mid-Term under `if packet.expiry:` (Python truthiness), into Long-Term
via `reinforce` under `if packet.salience >= 0.8:`. -/
def MemoryCoordinator.addPacket (st : CoordinatorState) (p : MemoryPacket) :
    CoordinatorState :=
  { st with
    active := st.active.push p
    short := ShortTermMemory.add st.short p
    mid := if pyTruthy p.expiry then st.mid.add p (p.expiry.getD 0) else st.mid
    long :=
      if (8 : ℚ)/10 ≤ p.salience then LongTermMemory.reinforce st.long p
      else st.long }

/-- The summarization prompt built in `_create_daily_summary_and_schedule_events`. -/
def MemoryCoordinator.summaryPrompt (textBlock : String) : String :=
  "Summarize the key events, topics, and participants from the " ++
    "following daily log. Be concise.\n\n" ++ textBlock

/-- The event-extraction prompt built in
`_create_daily_summary_and_schedule_events`. -/
def MemoryCoordinator.eventPrompt (dailySummary : String) : String :=
  "Analyze this summary for future events, appointments, or " ++
    "deadlines. If found, return a JSON object with \x27title\x27, \x27date\x27 " ++
    "(YYYY-MM-DD), and \x27time\x27 (HH:MM). If not found, return null.\n\n" ++
    "Summary:\n" ++ dailySummary

/-- `_schedule_event`: write the event into the user calendar, then insert a
`Proactive Reminder` packet into Mid-Term whose expiry is three days before
the event (falling back to `utcnow` when the date/time fails to parse). -/
def MemoryCoordinator.scheduleEvent (ext : Externals) (st : CoordinatorState)
    (event : EventData) (dailySummary : String) : CoordinatorState :=
  let title := event.titleOpt.getD "Untitled event"
  let date := event.dateOpt.getD ext.today
  let timeStr := event.timeOpt.getD "00:00"
  let st1 := { st with
    calendar := st.calendar ++
      [CalEvent.mk "user" date timeStr timeStr title dailySummary] }
  let dt := (ext.parseIso (date ++ "T" ++ timeStr ++ ":00")).getD ext.now
  let reminderTs := dt - 3 * 86400
  let reminderText :=
    "Proactive Reminder: Talk to Handler about upcoming event: " ++ title
  let packet :=
    MemoryPacket.create ext.now reminderText ["Handler"] ["reminder"] (7/10)
      (some reminderTs)
  { st1 with mid := st1.mid.add packet reminderTs }

/-- The per-packet body of the loop at the end of
`_create_daily_summary_and_schedule_events`: reinforce into Long-Term when
`salience >= 0.8`, then unconditionally archive the packet. -/
def MemoryCoordinator.processPrunedPacket (st : CoordinatorState)
    (p : MemoryPacket) : CoordinatorState :=
  let st1 :=
    if (8 : ℚ)/10 ≤ p.salience then
      { st with long := LongTermMemory.reinforce st.long p }
    else st
  { st1 with archive := ArchiveMemory.store st1.archive [p] }

/-- `_create_daily_summary_and_schedule_events`: build the daily summary
(empty when the collaborator yields nothing), retain it, attempt event
extraction (`or "null"`, non-dict treated as nothing), schedule a found
event, then reinforce/archive each pruned packet. -/
def MemoryCoordinator.createDailySummaryAndScheduleEvents (ext : Externals)
    (st : CoordinatorState) (packets : List MemoryPacket) : CoordinatorState :=
  let textBlock := String.intercalate "\n" (packets.map MemoryPacket.text)
  let dailySummary := pyOrStr (ext.gen (MemoryCoordinator.summaryPrompt textBlock)) ""
  let st1 := { st with lastSummary := some dailySummary }
  let eventJson := pyOrStr (ext.gen (MemoryCoordinator.eventPrompt dailySummary)) "null"
  let st2 :=
    match ext.jsonDict eventJson with
    | some ev => MemoryCoordinator.scheduleEvent ext st1 ev dailySummary
    | none => st1
  packets.foldl MemoryCoordinator.processPrunedPacket st2

/-- `initiate_dream_cycle`: a no-op on the modelled state unless the retained
summary is truthy, in which case it is cleared after the dream narration is
written to the log file (outside the modelled state). -/
def MemoryCoordinator.initiateDreamCycle (st : CoordinatorState) : CoordinatorState :=
  match st.lastSummary with
  | none => st
  | some s => if s = "" then st else { st with lastSummary := none }

/-- `consolidate`: prune Short-Term, run the daily-summary step on the pruned
packets when any exist, sweep Mid-Term and archive the expired packets,
decay Long-Term at threshold `0.2` and archive the demoted entries, then
enter the dream cycle. -/
def MemoryCoordinator.consolidate (ext : Externals) (st : CoordinatorState) :
    CoordinatorState :=
  let pr := ShortTermMemory.prune ext.now st.short
  let st1 := { st with short := pr.2 }
  let st2 :=
    if pr.1 = [] then st1
    else MemoryCoordinator.createDailySummaryAndScheduleEvents ext st1 pr.1
  let sw := MidTermMemory.sweep ext.now st2.mid
  let st3 := { st2 with
    mid := sw.2
    archive := if sw.1 = [] then st2.archive else ArchiveMemory.store st2.archive sw.1 }
  let dc := LongTermMemory.decay st3.long (1/5)
  let st4 := { st3 with
    long := dc.1
    archive := if dc.2 = [] then st3.archive else ArchiveMemory.store st3.archive dc.2 }
  MemoryCoordinator.initiateDreamCycle st4

/-- `PersonalCalendar.list_events`: the events of one owner calendar on one
date. -/
def PersonalCalendar.listEvents (calendar : List CalEvent) (who : String)
    (date : String) : List CalEvent :=
  calendar.filter (fun e => e.owner == who && e.date == date)

/-- The pair returned by `check_proactive_events`. -/
structure ProactiveResult where
  reminders : List String
  followups : List String
deriving DecidableEq, Repr

/-- `check_proactive_events`: sweep Mid-Term, keep the texts of expired
packets whose text starts with `"Proactive Reminder"`, and build a follow-up
question for each of yesterday's user-calendar events (curiosity engine
first, templated fallback otherwise).  No other state is touched. -/
def MemoryCoordinator.checkProactiveEvents (ext : Externals)
    (st : CoordinatorState) : ProactiveResult × CoordinatorState :=
  let sw := MidTermMemory.sweep ext.now st.mid
  let reminders :=
    (sw.1.filter (fun p => p.text.startsWith "Proactive Reminder")).map
      MemoryPacket.text
  let followups :=
    (PersonalCalendar.listEvents st.calendar "user" ext.yesterday).map
      (fun e =>
        match ext.maybeAsk e with
        | some q => q
        | none => "How did " ++ e.title ++ " go yesterday?")
  (⟨reminders, followups⟩, { st with mid := sw.2 })

/-! ## Iterated decay and concrete inputs used by the witnesses -/

/-- A small concrete packet builder used by the scenario witnesses. -/
def wPacket (i : ℚ) (t : String) : MemoryPacket :=
  ⟨i, t, [], [], 1/2, none⟩

/-- A concrete packet for the persistence-failure scenario. -/
def shortTermProbe : MemoryPacket :=
  ⟨0, "note", [], [], 1/2, none⟩

/-- Concrete purge records mirroring the example in the design notes:
record A is old but salient, record B is recent but faint, record C is old
and faint; thresholds are 30 days and salience `0.3`, "now" is day 100. -/
def purgeRecA : MemoryPacket := ⟨60 * 86400, "A", [], [], 1/2, none⟩

def purgeRecB : MemoryPacket := ⟨90 * 86400, "B", [], [], 1/10, none⟩

def purgeRecC : MemoryPacket := ⟨60 * 86400, "C", [], [], 1/10, none⟩

/-- Repeated `decay` passes over the same store: the state after `n` calls,
paired with the list of demoted batches the calls returned, in order. -/
def LongTermMemory.decayIter (entries : List MemoryPacket) (t : ℚ) :
    ℕ → List MemoryPacket × List (List MemoryPacket)
  | 0 => (entries, [])
  | n + 1 =>
      let prev := LongTermMemory.decayIter entries t n
      let d := LongTermMemory.decay prev.1 t
      (d.1, prev.2 ++ [d.2])

/-- A single low-salience Long-Term entry for the decay witness. -/
def decayProbe : MemoryPacket := ⟨0, "fading", [], [], 21/100, none⟩

/-- A two-row Mid-Term table for the sweep witness: one expired row, one
still-active row. -/
def midRowExpired : MidRow := ⟨1, wPacket 0 "due", 5⟩

def midRowAlive : MidRow := ⟨2, wPacket 1 "later", 20⟩

def midProbe : MidTermMemory := ⟨[midRowExpired, midRowAlive], 3⟩

/-- The end-to-end consolidation scenario packet: 25 hours old, salience
`0.9`, text `"met with Alex about the project"`. -/
def alexPacket (now : ℚ) : MemoryPacket :=
  ⟨now - 25 * 3600, "met with Alex about the project", [], [], 9/10, none⟩

/-- Externals with the text-generation collaborator unavailable (and all
other collaborators inert), used by the coordinator witnesses. -/
def extUnavailable : Externals :=
  ⟨fun _ => none, fun _ => none, fun _ => none, fun _ => none, 200000, "", ""⟩

/-- A coordinator state holding exactly the 25-hour-old scenario packet. -/
def consolidationState : CoordinatorState :=
  ⟨ActiveMemory.init, [alexPacket 200000], ⟨[], 1⟩, [], [], [], none⟩

/-- A fresh per-user coordinator state (empty tiers, no retained summary). -/
def emptyCoordinator : CoordinatorState :=
  ⟨ActiveMemory.init, [], ⟨[], 1⟩, [], [], [], none⟩

/-- A coordinator state whose Mid-Term table is the two-row probe. -/
def proactiveState : CoordinatorState :=
  ⟨ActiveMemory.init, [], midProbe, [], [], [], none⟩

/-- A packet whose expiry is set to the epoch timestamp `0.0`. -/
def packetZeroExpiry : MemoryPacket := ⟨0, "epoch due", [], [], 1/2, some 0⟩

/-- A packet with nonzero expiry and salience `0.3` for the fan-out witness. -/
def packetMidOnly : MemoryPacket := ⟨0, "errand", [], [], 3/10, some 5⟩

/-! ## Helper lemmas -/

theorem isPrefixOf_self : ∀ l : List Char, l.isPrefixOf l = true := by
  intro l
  induction l with
  | nil => rfl
  | cons a t ih => simp [List.isPrefixOf, ih]

theorem strContains_self (s : String) : strContains s s = true := by
  unfold strContains
  cases h : s.toLower.data with
  | nil => rfl
  | cons c t => simp [infixOf, isPrefixOf_self]

/-- Buffer contents after pushing a sequence: the deque keeps the last
`maxlen` elements of the total appended sequence. -/
theorem ActiveMemory.pushAll_buffer (N : ℕ) :
    ∀ (ps b : List MemoryPacket), b.length ≤ N →
      (ActiveMemory.pushAll ⟨N, b⟩ ps).buffer = (b ++ ps).drop ((b ++ ps).length - N)
  | [], b, hb => by
      simp [ActiveMemory.pushAll, Nat.sub_eq_zero_of_le hb]
  | p :: ps, b, hb => by
      have hk : (b ++ [p]).length - N ≤ (b ++ [p]).length := Nat.sub_le _ _
      have hlen2 : ((b ++ [p]).drop ((b ++ [p]).length - N)).length ≤ N := by
        simp only [List.length_drop]
        omega
      have ih := ActiveMemory.pushAll_buffer N ps
        ((b ++ [p]).drop ((b ++ [p]).length - N)) hlen2
      have hstep : ActiveMemory.pushAll ⟨N, b⟩ (p :: ps) =
          ActiveMemory.pushAll ⟨N, (b ++ [p]).drop ((b ++ [p]).length - N)⟩ ps := rfl
      have hx : b ++ p :: ps = (b ++ [p]) ++ ps := by simp
      rw [hstep, ih, ← List.drop_append_of_le_length hk, List.drop_drop, hx]
      congr 1
      simp only [List.length_append, List.length_drop, List.length_cons,
        List.length_singleton]
      omega

theorem LongTermMemory.reinforce_no_match :
    ∀ (entries : List MemoryPacket) (p : MemoryPacket),
      (∀ e ∈ entries, e.text ≠ p.text) →
      LongTermMemory.reinforce entries p = entries ++ [p]
  | [], _, _ => rfl
  | e :: rest, p, h => by
      have he : ¬ e.text = p.text := h e (by simp)
      simp only [LongTermMemory.reinforce, if_neg he, List.cons_append,
        List.cons.injEq, true_and]
      exact LongTermMemory.reinforce_no_match rest p
        (fun q hq => h q (by simp [hq]))

theorem LongTermMemory.reinforce_match :
    ∀ (pre : List MemoryPacket) (e : MemoryPacket) (post : List MemoryPacket)
      (p : MemoryPacket), (∀ q ∈ pre, q.text ≠ p.text) → e.text = p.text →
      LongTermMemory.reinforce (pre ++ e :: post) p =
        pre ++ { e with salience := min 1 (e.salience + 1/10) } :: post
  | [], e, post, p, _, he => by
      simp [LongTermMemory.reinforce, he]
  | q :: pre, e, post, p, h, he => by
      have hq : ¬ q.text = p.text := h q (by simp)
      simp only [List.cons_append, LongTermMemory.reinforce, if_neg hq,
        List.cons.injEq, true_and]
      exact LongTermMemory.reinforce_match pre e post p
        (fun r hr => h r (by simp [hr])) he

theorem LongTermMemory.reinforce_text_mem :
    ∀ (entries : List MemoryPacket) (p : MemoryPacket) (x : String),
      x ∈ (LongTermMemory.reinforce entries p).map MemoryPacket.text ↔
        x ∈ entries.map MemoryPacket.text ∨ x = p.text
  | [], p, x => by simp [LongTermMemory.reinforce]
  | e :: rest, p, x => by
      by_cases he : e.text = p.text
      · simp only [LongTermMemory.reinforce, if_pos he, List.map_cons,
          List.mem_cons]
        have hbump :
            ({ e with salience := min 1 (e.salience + 1/10) } :
              MemoryPacket).text = e.text := rfl
        rw [hbump, he]
        tauto
      · simp only [LongTermMemory.reinforce, if_neg he, List.map_cons,
          List.mem_cons, LongTermMemory.reinforce_text_mem rest p x]
        tauto

/-! ## C7 — Active Memory capacity bound -/

/-- C7: Active Memory is a bounded sequence (default capacity 20); pushing
`N+1` packets into a capacity-`N` Active Memory yields a snapshot of exactly
`N` packets ordered most-recent-last, equal to the pushed sequence without
its first element, so its oldest entry is the 2nd packet pushed and the 1st
was silently evicted. -/
theorem C7_active_bound (N : ℕ) (ps : List MemoryPacket)
    (_hN : 1 ≤ N) (hlen : ps.length = N + 1) :
    (ActiveMemory.init).maxlen = 20 ∧
    (ActiveMemory.pushAll ⟨N, []⟩ ps).snapshot = ps.drop 1 ∧
    (ActiveMemory.pushAll ⟨N, []⟩ ps).snapshot.length = N ∧
    (ActiveMemory.pushAll ⟨N, []⟩ ps).snapshot.head? = ps[1]? := by
  have h := ActiveMemory.pushAll_buffer N ps [] (by simp)
  simp only [List.nil_append] at h
  have hdrop : ps.length - N = 1 := by omega
  rw [hdrop] at h
  refine ⟨rfl, h, ?_, ?_⟩
  · show ((ActiveMemory.pushAll ⟨N, []⟩ ps).buffer).length = N
    rw [h]
    simp [hlen]
  · show ((ActiveMemory.pushAll ⟨N, []⟩ ps).buffer).head? = ps[1]?
    rw [h]
    exact List.head?_drop ps 1

theorem C7_active_bound_witness :
    1 ≤ 2 ∧ ([wPacket 1 "a", wPacket 2 "b", wPacket 3 "c"].length = 2 + 1) ∧
    ((ActiveMemory.init).maxlen = 20 ∧
     (ActiveMemory.pushAll ⟨2, []⟩
        [wPacket 1 "a", wPacket 2 "b", wPacket 3 "c"]).snapshot =
       [wPacket 1 "a", wPacket 2 "b", wPacket 3 "c"].drop 1 ∧
     (ActiveMemory.pushAll ⟨2, []⟩
        [wPacket 1 "a", wPacket 2 "b", wPacket 3 "c"]).snapshot.length = 2 ∧
     (ActiveMemory.pushAll ⟨2, []⟩
        [wPacket 1 "a", wPacket 2 "b", wPacket 3 "c"]).snapshot.head? =
       [wPacket 1 "a", wPacket 2 "b", wPacket 3 "c"][1]?) :=
  ⟨by decide, rfl, C7_active_bound 2 _ (by decide) rfl⟩

/-! ## C9 — Short-Term `add` and persistence failures -/

/-- C9 (code behaviour at the failing input): `ShortTermMemory.add` catches
every exception of `_save` and returns `None`, so a failing save (for
example a full disk) is indistinguishable to the caller from a successful
one — the call reports success either way, contradicting the claim that
`add` surfaces persistence failures as a boolean/error result. -/
theorem C9_add_swallows_failed_save :
    ShortTermMemory.addWithSave (fun _ => Except.error "disk full") []
        shortTermProbe =
      ShortTermMemory.addWithSave (fun _ => Except.ok ()) [] shortTermProbe ∧
    (ShortTermMemory.addWithSave (fun _ => Except.error "disk full") []
        shortTermProbe).1 = [shortTermProbe] :=
  ⟨rfl, rfl⟩

/-! ## C6 — Archive purge conjunction -/

theorem ArchiveMemory.purge_filter (now : ℚ) (days : ℕ) (thr : ℚ) :
    ∀ log : List MemoryPacket,
      ArchiveMemory.purgeOldMemories now days thr log =
        log.filter (fun r =>
          decide (¬(r.timestamp < now - (days : ℚ) * 86400 ∧ r.salience < thr)))
  | [] => rfl
  | r :: rest => by
      have hstep : ArchiveMemory.purgeOldMemories now days thr (r :: rest) =
          if r.timestamp < now - (days : ℚ) * 86400 ∧ r.salience < thr then
            ArchiveMemory.purgeOldMemories now days thr rest
          else r :: ArchiveMemory.purgeOldMemories now days thr rest := rfl
      rw [hstep, List.filter_cons, ArchiveMemory.purge_filter now days thr rest]
      by_cases h : r.timestamp < now - (days : ℚ) * 86400 ∧ r.salience < thr
      · rw [if_pos h, if_neg (by simp only [decide_eq_true_eq, not_not]; exact h)]
      · rw [if_neg h, if_pos (by simp only [decide_eq_true_eq]; exact h)]

/-- C6: `purge_old_memories(age_threshold_days, salience_threshold)` keeps
exactly the records that are NOT (older than the age cutoff AND below the
salience threshold): a record failing either condition alone is retained,
and only records that are both old and low-salience are removed. -/
theorem C6_purge_conjunction (now : ℚ) (days : ℕ) (thr : ℚ)
    (log : List MemoryPacket) :
    (ArchiveMemory.purgeOldMemories now days thr log =
      log.filter (fun r =>
        decide (¬(r.timestamp < now - (days : ℚ) * 86400 ∧ r.salience < thr)))) ∧
    (∀ r ∈ log, ¬ r.timestamp < now - (days : ℚ) * 86400 →
      r ∈ ArchiveMemory.purgeOldMemories now days thr log) ∧
    (∀ r ∈ log, ¬ r.salience < thr →
      r ∈ ArchiveMemory.purgeOldMemories now days thr log) ∧
    (∀ r, r.timestamp < now - (days : ℚ) * 86400 → r.salience < thr →
      r ∉ ArchiveMemory.purgeOldMemories now days thr log) := by
  have hf := ArchiveMemory.purge_filter now days thr log
  refine ⟨hf, ?_, ?_, ?_⟩
  · intro r hr hage
    rw [hf]
    simp only [List.mem_filter, decide_eq_true_eq]
    exact ⟨hr, fun hc => hage hc.1⟩
  · intro r hr hsal
    rw [hf]
    simp only [List.mem_filter, decide_eq_true_eq]
    exact ⟨hr, fun hc => hsal hc.2⟩
  · intro r hage hsal hc
    rw [hf] at hc
    simp only [List.mem_filter, decide_eq_true_eq] at hc
    exact hc.2 ⟨hage, hsal⟩

theorem C6_purge_conjunction_witness :
    (¬ purgeRecA.salience < 3/10) ∧
    (¬ purgeRecB.timestamp < 100 * 86400 - ((30 : ℕ) : ℚ) * 86400) ∧
    (purgeRecC.timestamp < 100 * 86400 - ((30 : ℕ) : ℚ) * 86400 ∧
      purgeRecC.salience < 3/10) ∧
    purgeRecA ∈ ArchiveMemory.purgeOldMemories (100 * 86400) 30 (3/10)
      [purgeRecA, purgeRecB, purgeRecC] ∧
    purgeRecB ∈ ArchiveMemory.purgeOldMemories (100 * 86400) 30 (3/10)
      [purgeRecA, purgeRecB, purgeRecC] ∧
    purgeRecC ∉ ArchiveMemory.purgeOldMemories (100 * 86400) 30 (3/10)
      [purgeRecA, purgeRecB, purgeRecC] :=
  ⟨by norm_num [purgeRecA], by norm_num [purgeRecB],
   by norm_num [purgeRecC],
   (C6_purge_conjunction (100 * 86400) 30 (3/10)
       [purgeRecA, purgeRecB, purgeRecC]).2.2.1 purgeRecA (by simp)
     (by norm_num [purgeRecA]),
   (C6_purge_conjunction (100 * 86400) 30 (3/10)
       [purgeRecA, purgeRecB, purgeRecC]).2.1 purgeRecB (by simp)
     (by norm_num [purgeRecB]),
   (C6_purge_conjunction (100 * 86400) 30 (3/10)
       [purgeRecA, purgeRecB, purgeRecC]).2.2.2 purgeRecC
     (by norm_num [purgeRecC]) (by norm_num [purgeRecC])⟩

/-! ## C3 — Long-Term reinforcement by exact text -/

/-- C3: `reinforce` looks an entry up by exact text equality: with no match
the packet's full record is appended as a new entry; with a match the first
matching entry's salience is bumped by exactly `0.1` clamped at `1.0` and no
new entry is created.  Reinforcing the same text twice from the default
salience `0.5` leaves exactly one stored entry with salience
`min(1.0, 0.5 + 0.1) = 0.6`, and `query` of that text returns exactly that
one match. -/
theorem C3_reinforce_exact_text (entries : List MemoryPacket)
    (p : MemoryPacket) :
    ((∀ e ∈ entries, e.text ≠ p.text) →
      LongTermMemory.reinforce entries p = entries ++ [p]) ∧
    (∀ pre e post, entries = pre ++ e :: post →
      (∀ q ∈ pre, q.text ≠ p.text) → e.text = p.text →
      LongTermMemory.reinforce entries p =
        pre ++ { e with salience := min 1 (e.salience + 1/10) } :: post) ∧
    (p.salience = 1/2 →
      LongTermMemory.reinforce (LongTermMemory.reinforce [] p) p =
        [{ p with salience := 3/5 }] ∧
      LongTermMemory.query
          (LongTermMemory.reinforce (LongTermMemory.reinforce [] p) p) p.text =
        [{ p with salience := 3/5 }]) := by
  refine ⟨LongTermMemory.reinforce_no_match entries p, ?_, ?_⟩
  · intro pre e post hsplit hpre he
    rw [hsplit]
    exact LongTermMemory.reinforce_match pre e post p hpre he
  · intro hsal
    have h1 : LongTermMemory.reinforce [] p = [p] := rfl
    have h2 : LongTermMemory.reinforce [p] p =
        [{ p with salience := min 1 (p.salience + 1/10) }] := by
      simp [LongTermMemory.reinforce]
    have h3 : min (1 : ℚ) (p.salience + 1/10) = 3/5 := by
      rw [hsal]
      norm_num
    have h4 : LongTermMemory.reinforce (LongTermMemory.reinforce [] p) p =
        [{ p with salience := 3/5 }] := by
      rw [h1, h2, h3]
    refine ⟨h4, ?_⟩
    rw [h4]
    have htext : ({ p with salience := (3 : ℚ)/5 } : MemoryPacket).text =
        p.text := rfl
    simp [LongTermMemory.query, List.filter_cons, htext, strContains_self]

theorem C3_reinforce_exact_text_witness :
    (wPacket 0 "hello dear").salience = 1/2 ∧
    (LongTermMemory.reinforce
        (LongTermMemory.reinforce [] (wPacket 0 "hello dear"))
        (wPacket 0 "hello dear") =
      [{ wPacket 0 "hello dear" with salience := 3/5 }] ∧
     LongTermMemory.query
        (LongTermMemory.reinforce
          (LongTermMemory.reinforce [] (wPacket 0 "hello dear"))
          (wPacket 0 "hello dear")) (wPacket 0 "hello dear").text =
      [{ wPacket 0 "hello dear" with salience := 3/5 }]) :=
  ⟨rfl, (C3_reinforce_exact_text [] (wPacket 0 "hello dear")).2.2 rfl⟩

/-! ## C4 — Long-Term decay -/

theorem LongTermMemory.decay_eq_partition (t : ℚ) :
    ∀ entries : List MemoryPacket,
      LongTermMemory.decay entries t =
        ((entries.map LongTermMemory.decayEntry).filter
            (fun e => !decide (e.salience < t)),
         (entries.map LongTermMemory.decayEntry).filter
            (fun e => decide (e.salience < t)))
  | [] => rfl
  | e :: rest => by
      have hstep : LongTermMemory.decay (e :: rest) t =
          if (LongTermMemory.decayEntry e).salience < t then
            ((LongTermMemory.decay rest t).1,
             LongTermMemory.decayEntry e :: (LongTermMemory.decay rest t).2)
          else
            (LongTermMemory.decayEntry e :: (LongTermMemory.decay rest t).1,
             (LongTermMemory.decay rest t).2) := rfl
      rw [hstep, LongTermMemory.decay_eq_partition t rest]
      by_cases h : (LongTermMemory.decayEntry e).salience < t
      · rw [if_pos h]
        simp [List.filter_cons, h]
      · rw [if_neg h]
        simp [List.filter_cons, h]

theorem LongTermMemory.decayIter_fst (entries : List MemoryPacket) (t : ℚ)
    (n : ℕ) :
    (LongTermMemory.decayIter entries t (n + 1)).1 =
      ((LongTermMemory.decayIter entries t n).1.map
          LongTermMemory.decayEntry).filter
        (fun e => !decide (e.salience < t)) := by
  show (LongTermMemory.decay (LongTermMemory.decayIter entries t n).1 t).1 = _
  rw [LongTermMemory.decay_eq_partition t _]

theorem LongTermMemory.decayIter_nonneg (entries : List MemoryPacket) (t : ℚ)
    (h0 : ∀ e ∈ entries, 0 ≤ e.salience) :
    ∀ n, ∀ e ∈ (LongTermMemory.decayIter entries t n).1, 0 ≤ e.salience := by
  intro n
  induction n with
  | zero => exact h0
  | succ n ih =>
      intro e he
      rw [LongTermMemory.decayIter_fst entries t n] at he
      have he2 := List.mem_of_mem_filter he
      rcases List.mem_map.mp he2 with ⟨e0, he0, rfl⟩
      have h00 : 0 ≤ e0.salience := ih e0 he0
      show 0 ≤ e0.salience * (99/100)
      exact mul_nonneg h00 (by norm_num)

theorem LongTermMemory.decayIter_texts_nodup (entries : List MemoryPacket)
    (t : ℚ) (hnd : (entries.map MemoryPacket.text).Nodup) :
    ∀ n, ((((LongTermMemory.decayIter entries t n).2.flatten ++
        (LongTermMemory.decayIter entries t n).1).map MemoryPacket.text)).Nodup := by
  intro n
  induction n with
  | zero => simpa using hnd
  | succ n ih =>
      have hfst := LongTermMemory.decayIter_fst entries t n
      have hsnd : (LongTermMemory.decayIter entries t (n + 1)).2 =
          (LongTermMemory.decayIter entries t n).2 ++
            [((LongTermMemory.decayIter entries t n).1.map
                LongTermMemory.decayEntry).filter
              (fun e => decide (e.salience < t))] := by
        show (LongTermMemory.decayIter entries t n).2 ++
            [(LongTermMemory.decay (LongTermMemory.decayIter entries t n).1 t).2] = _
        rw [LongTermMemory.decay_eq_partition t _]
      rw [hfst, hsnd]
      simp only [List.flatten_append, List.flatten_cons, List.flatten_nil,
        List.append_nil]
      have hperm : List.Perm
          (((LongTermMemory.decayIter entries t n).2.flatten ++
              ((LongTermMemory.decayIter entries t n).1.map
                  LongTermMemory.decayEntry).filter
                (fun e => decide (e.salience < t))) ++
            ((LongTermMemory.decayIter entries t n).1.map
                LongTermMemory.decayEntry).filter
              (fun e => !decide (e.salience < t)))
          ((LongTermMemory.decayIter entries t n).2.flatten ++
            (LongTermMemory.decayIter entries t n).1.map
              LongTermMemory.decayEntry) := by
        rw [List.append_assoc]
        exact List.Perm.append_left _ (List.filter_append_perm _ _)
      have hmap := hperm.map MemoryPacket.text
      have htext :
          ((LongTermMemory.decayIter entries t n).2.flatten ++
            (LongTermMemory.decayIter entries t n).1.map
              LongTermMemory.decayEntry).map MemoryPacket.text =
          ((LongTermMemory.decayIter entries t n).2.flatten ++
            (LongTermMemory.decayIter entries t n).1).map MemoryPacket.text := by
        simp only [List.map_append]
        congr 1
        rw [List.map_map]
        rfl
      rw [htext] at hmap
      exact hmap.nodup_iff.mpr ih

/-- C4: each `decay(threshold)` call multiplies every entry's salience by
exactly `0.99` and partitions the store: kept entries are exactly those at
or above the threshold after decay, returned (demoted) entries exactly those
below.  Over repeated calls, every surviving entry is the decayed image of
an entry of the previous store with salience no larger (non-increasing given
nonnegative salience), and — given distinct texts — the texts across all
demoted batches and the surviving store stay pairwise distinct, so an entry
is returned as demoted at most once and never again after falling below the
threshold. -/
theorem C4_decay_monotone (entries : List MemoryPacket) (t : ℚ) :
    (LongTermMemory.decay entries t =
      ((entries.map LongTermMemory.decayEntry).filter
          (fun e => !decide (e.salience < t)),
       (entries.map LongTermMemory.decayEntry).filter
          (fun e => decide (e.salience < t)))) ∧
    ((∀ e ∈ entries, 0 ≤ e.salience) → ∀ n,
      ∀ e ∈ (LongTermMemory.decayIter entries t (n + 1)).1,
        ∃ e2 ∈ (LongTermMemory.decayIter entries t n).1,
          e = LongTermMemory.decayEntry e2 ∧ e.salience ≤ e2.salience) ∧
    ((entries.map MemoryPacket.text).Nodup → ∀ n,
      ((((LongTermMemory.decayIter entries t n).2.flatten ++
          (LongTermMemory.decayIter entries t n).1).map
        MemoryPacket.text)).Nodup) := by
  refine ⟨LongTermMemory.decay_eq_partition t entries, ?_,
    LongTermMemory.decayIter_texts_nodup entries t⟩
  intro h0 n e he
  rw [LongTermMemory.decayIter_fst entries t n] at he
  have he2 := List.mem_of_mem_filter he
  rcases List.mem_map.mp he2 with ⟨e0, he0, rfl⟩
  refine ⟨e0, he0, rfl, ?_⟩
  have h00 : 0 ≤ e0.salience :=
    LongTermMemory.decayIter_nonneg entries t h0 n e0 he0
  show e0.salience * (99/100) ≤ e0.salience
  exact mul_le_of_le_one_right h00 (by norm_num)

theorem C4_decay_monotone_witness :
    (∀ e ∈ [decayProbe], (0 : ℚ) ≤ e.salience) ∧
    (([decayProbe].map MemoryPacket.text).Nodup) ∧
    (∀ e ∈ (LongTermMemory.decayIter [decayProbe] (1/5) (0 + 1)).1,
      ∃ e2 ∈ (LongTermMemory.decayIter [decayProbe] (1/5) 0).1,
        e = LongTermMemory.decayEntry e2 ∧ e.salience ≤ e2.salience) ∧
    ((((LongTermMemory.decayIter [decayProbe] (1/5) 3).2.flatten ++
        (LongTermMemory.decayIter [decayProbe] (1/5) 3).1).map
      MemoryPacket.text)).Nodup :=
  ⟨by norm_num [decayProbe], by simp,
   (C4_decay_monotone [decayProbe] (1/5)).2.1 (by norm_num [decayProbe]) 0,
   (C4_decay_monotone [decayProbe] (1/5)).2.2 (by simp) 3⟩

/-! ## C5 — Mid-Term sweep idempotence -/

theorem MidTermMemory.sweep_rows (now : ℚ) (st : MidTermMemory)
    (h : (st.rows.map MidRow.rowId).Nodup) :
    (MidTermMemory.sweep now st).2.rows =
      st.rows.filter (fun r => decide (¬ r.expiry ≤ now)) := by
  show st.rows.filter (fun r => decide (r.rowId ∉
      ((st.rows.filter (fun r => decide (r.expiry ≤ now))).map MidRow.rowId))) = _
  apply List.filter_congr
  intro r hr
  apply decide_eq_decide.mpr
  constructor
  · intro hnot hle
    exact hnot (List.mem_map.mpr
      ⟨r, List.mem_filter.mpr ⟨hr, by simpa using hle⟩, rfl⟩)
  · intro hnle hmem
    rcases List.mem_map.mp hmem with ⟨r2, hr2, hid⟩
    have hr2m := List.mem_of_mem_filter hr2
    have hexp : r2.expiry ≤ now := by simpa using List.of_mem_filter hr2
    have heq : r2 = r := List.inj_on_of_nodup_map h hr2m hr hid
    exact hnle (heq ▸ hexp)

/-- C5: `sweep` returns and removes exactly the stored packets whose
`expiry <= now`: the returned list is the expired rows' packets (each
exactly once), the remaining table is exactly the non-expired rows, a second
sweep (with no new expiries in between) returns the empty list, and
`fetch_active` still returns the same non-expired packets afterwards. -/
theorem C5_sweep_idempotent (st : MidTermMemory) (t t2 : ℚ)
    (hids : (st.rows.map MidRow.rowId).Nodup) (_hle : t ≤ t2)
    (hnonew : ∀ r ∈ st.rows, r.expiry ≤ t2 → r.expiry ≤ t) :
    ((MidTermMemory.sweep t st).1 =
      (st.rows.filter (fun r => decide (r.expiry ≤ t))).map MidRow.data) ∧
    ((MidTermMemory.sweep t st).2.rows =
      st.rows.filter (fun r => decide (¬ r.expiry ≤ t))) ∧
    ((MidTermMemory.sweep t2 (MidTermMemory.sweep t st).2).1 = []) ∧
    (MidTermMemory.fetchActive t (MidTermMemory.sweep t st).2 =
      MidTermMemory.fetchActive t st) := by
  have hrows := MidTermMemory.sweep_rows t st hids
  refine ⟨rfl, hrows, ?_, ?_⟩
  · show (((MidTermMemory.sweep t st).2.rows.filter
        (fun r => decide (r.expiry ≤ t2))).map MidRow.data) = []
    rw [hrows, List.filter_filter]
    have hnil : st.rows.filter
        (fun r => decide (r.expiry ≤ t2) && decide (¬ r.expiry ≤ t)) = [] := by
      apply List.filter_eq_nil_iff.mpr
      intro r hr
      simp only [Bool.and_eq_true, decide_eq_true_eq, not_and]
      intro h2 h1
      exact h1 (hnonew r hr h2)
    rw [hnil]
    rfl
  · show (((MidTermMemory.sweep t st).2.rows.filter
        (fun r => decide (t < r.expiry))).map MidRow.data) =
      ((st.rows.filter (fun r => decide (t < r.expiry))).map MidRow.data)
    rw [hrows, List.filter_filter]
    congr 1
    apply List.filter_congr
    intro r _
    rw [show decide (¬ r.expiry ≤ t) = decide (t < r.expiry) from
      decide_eq_decide.mpr not_le]
    exact Bool.and_self _

theorem C5_sweep_idempotent_witness :
    ((midProbe.rows.map MidRow.rowId).Nodup) ∧ ((10 : ℚ) ≤ 10) ∧
    (∀ r ∈ midProbe.rows, r.expiry ≤ (10 : ℚ) → r.expiry ≤ (10 : ℚ)) ∧
    (((MidTermMemory.sweep 10 midProbe).1 =
        (midProbe.rows.filter (fun r => decide (r.expiry ≤ (10 : ℚ)))).map
          MidRow.data) ∧
     ((MidTermMemory.sweep 10 midProbe).2.rows =
        midProbe.rows.filter (fun r => decide (¬ r.expiry ≤ (10 : ℚ)))) ∧
     ((MidTermMemory.sweep 10 (MidTermMemory.sweep 10 midProbe).2).1 = []) ∧
     (MidTermMemory.fetchActive 10 (MidTermMemory.sweep 10 midProbe).2 =
        MidTermMemory.fetchActive 10 midProbe)) :=
  ⟨by simp [midProbe, midRowExpired, midRowAlive], le_refl 10,
   fun r _ h => h,
   C5_sweep_idempotent midProbe 10 10
     (by simp [midProbe, midRowExpired, midRowAlive]) (le_refl 10)
     (fun r _ h => h)⟩

/-! ## Coordinator helper lemmas -/

theorem ShortTermMemory.prune_fst (now : ℚ) (entries : List MemoryPacket) :
    (ShortTermMemory.prune now entries).1 =
      entries.filter (fun p => decide (p.timestamp < now - 24 * 3600)) := by
  simp only [ShortTermMemory.prune]
  by_cases h :
      entries.filter (fun p => decide (p.timestamp < now - 24 * 3600)) = [] <;>
    simp [h]

theorem ShortTermMemory.prune_snd_of_ne (now : ℚ) (entries : List MemoryPacket)
    (h : (ShortTermMemory.prune now entries).1 ≠ []) :
    (ShortTermMemory.prune now entries).2 =
      entries.filter (fun p => decide (now - 24 * 3600 ≤ p.timestamp)) := by
  rw [ShortTermMemory.prune_fst] at h
  simp only [ShortTermMemory.prune]
  rw [if_neg h]

theorem MemoryCoordinator.processPruned_fields (st : CoordinatorState)
    (p : MemoryPacket) :
    (MemoryCoordinator.processPrunedPacket st p).calendar = st.calendar ∧
    (MemoryCoordinator.processPrunedPacket st p).mid = st.mid ∧
    (MemoryCoordinator.processPrunedPacket st p).lastSummary = st.lastSummary ∧
    (MemoryCoordinator.processPrunedPacket st p).short = st.short ∧
    (MemoryCoordinator.processPrunedPacket st p).active = st.active ∧
    (MemoryCoordinator.processPrunedPacket st p).archive = st.archive ++ [p] ∧
    (MemoryCoordinator.processPrunedPacket st p).long =
      (if (8 : ℚ)/10 ≤ p.salience then LongTermMemory.reinforce st.long p
       else st.long) := by
  by_cases h : (8 : ℚ)/10 ≤ p.salience <;>
    simp [MemoryCoordinator.processPrunedPacket, ArchiveMemory.store, h]

theorem MemoryCoordinator.foldProcess_preserves :
    ∀ (ps : List MemoryPacket) (st : CoordinatorState),
      (ps.foldl MemoryCoordinator.processPrunedPacket st).calendar =
          st.calendar ∧
      (ps.foldl MemoryCoordinator.processPrunedPacket st).mid = st.mid ∧
      (ps.foldl MemoryCoordinator.processPrunedPacket st).lastSummary =
          st.lastSummary ∧
      (ps.foldl MemoryCoordinator.processPrunedPacket st).short = st.short ∧
      (ps.foldl MemoryCoordinator.processPrunedPacket st).active = st.active
  | [], st => ⟨rfl, rfl, rfl, rfl, rfl⟩
  | p :: ps, st => by
      have h1 := MemoryCoordinator.processPruned_fields st p
      have ih := MemoryCoordinator.foldProcess_preserves ps
        (MemoryCoordinator.processPrunedPacket st p)
      simp only [List.foldl_cons]
      exact ⟨ih.1.trans h1.1, ih.2.1.trans h1.2.1,
        ih.2.2.1.trans h1.2.2.1, ih.2.2.2.1.trans h1.2.2.2.1,
        ih.2.2.2.2.trans h1.2.2.2.2.1⟩

theorem MemoryCoordinator.foldProcess_archive :
    ∀ (ps : List MemoryPacket) (st : CoordinatorState),
      (ps.foldl MemoryCoordinator.processPrunedPacket st).archive =
        st.archive ++ ps
  | [], st => by simp
  | p :: ps, st => by
      simp only [List.foldl_cons]
      rw [MemoryCoordinator.foldProcess_archive ps _,
        (MemoryCoordinator.processPruned_fields st p).2.2.2.2.2.1]
      simp

theorem MemoryCoordinator.foldProcess_long :
    ∀ (ps : List MemoryPacket) (st : CoordinatorState),
      (ps.foldl MemoryCoordinator.processPrunedPacket st).long =
        ps.foldl
          (fun l p =>
            if (8 : ℚ)/10 ≤ p.salience then LongTermMemory.reinforce l p else l)
          st.long
  | [], _ => rfl
  | p :: ps, st => by
      simp only [List.foldl_cons]
      rw [MemoryCoordinator.foldProcess_long ps _,
        (MemoryCoordinator.processPruned_fields st p).2.2.2.2.2.2]

theorem longFold_text_mem :
    ∀ (ps : List MemoryPacket) (l : List MemoryPacket) (x : String),
      (x ∈ (ps.foldl
          (fun l p =>
            if (8 : ℚ)/10 ≤ p.salience then LongTermMemory.reinforce l p else l)
          l).map MemoryPacket.text ↔
        x ∈ l.map MemoryPacket.text ∨
          ∃ p ∈ ps, (8 : ℚ)/10 ≤ p.salience ∧ p.text = x)
  | [], l, x => by simp
  | p :: ps, l, x => by
      simp only [List.foldl_cons]
      rw [longFold_text_mem ps _ x]
      by_cases h : (8 : ℚ)/10 ≤ p.salience
      · rw [if_pos h, LongTermMemory.reinforce_text_mem]
        simp only [List.mem_cons, exists_eq_or_imp]
        rw [show (x = p.text) ↔ (p.text = x) from eq_comm]
        tauto
      · rw [if_neg h]
        simp only [List.mem_cons, exists_eq_or_imp]
        tauto

theorem MemoryCoordinator.createDaily_eq_fold (ext : Externals)
    (st : CoordinatorState) (ps : List MemoryPacket) :
    ∃ st2 : CoordinatorState,
      st2.short = st.short ∧ st2.active = st.active ∧
      st2.archive = st.archive ∧ st2.long = st.long ∧
      MemoryCoordinator.createDailySummaryAndScheduleEvents ext st ps =
        ps.foldl MemoryCoordinator.processPrunedPacket st2 := by
  simp only [MemoryCoordinator.createDailySummaryAndScheduleEvents]
  cases hj : ext.jsonDict (pyOrStr (ext.gen (MemoryCoordinator.eventPrompt
      (pyOrStr (ext.gen (MemoryCoordinator.summaryPrompt
        (String.intercalate "\n" (ps.map MemoryPacket.text)))) ""))) "null") with
  | none =>
      exact ⟨{ st with lastSummary := some (pyOrStr (ext.gen
        (MemoryCoordinator.summaryPrompt (String.intercalate "\n"
          (ps.map MemoryPacket.text)))) "") }, rfl, rfl, rfl, rfl, rfl⟩
  | some ev =>
      exact ⟨MemoryCoordinator.scheduleEvent ext
        { st with lastSummary := some (pyOrStr (ext.gen
          (MemoryCoordinator.summaryPrompt (String.intercalate "\n"
            (ps.map MemoryPacket.text)))) "") } ev
        (pyOrStr (ext.gen (MemoryCoordinator.summaryPrompt
          (String.intercalate "\n" (ps.map MemoryPacket.text)))) ""),
        rfl, rfl, rfl, rfl, rfl⟩

theorem MemoryCoordinator.createDaily_short (ext : Externals)
    (st : CoordinatorState) (ps : List MemoryPacket) :
    (MemoryCoordinator.createDailySummaryAndScheduleEvents ext st ps).short =
      st.short := by
  obtain ⟨st2, h1, -, -, -, heq⟩ :=
    MemoryCoordinator.createDaily_eq_fold ext st ps
  rw [heq, (MemoryCoordinator.foldProcess_preserves ps st2).2.2.2.1, h1]

theorem MemoryCoordinator.createDaily_archive (ext : Externals)
    (st : CoordinatorState) (ps : List MemoryPacket) :
    (MemoryCoordinator.createDailySummaryAndScheduleEvents ext st ps).archive =
      st.archive ++ ps := by
  obtain ⟨st2, -, -, h3, -, heq⟩ :=
    MemoryCoordinator.createDaily_eq_fold ext st ps
  rw [heq, MemoryCoordinator.foldProcess_archive ps st2, h3]

theorem MemoryCoordinator.createDaily_long_mem (ext : Externals)
    (st : CoordinatorState) (ps : List MemoryPacket) (x : String) :
    x ∈ (MemoryCoordinator.createDailySummaryAndScheduleEvents ext
        st ps).long.map MemoryPacket.text ↔
      x ∈ st.long.map MemoryPacket.text ∨
        ∃ p ∈ ps, (8 : ℚ)/10 ≤ p.salience ∧ p.text = x := by
  obtain ⟨st2, -, -, -, h4, heq⟩ :=
    MemoryCoordinator.createDaily_eq_fold ext st ps
  rw [heq, MemoryCoordinator.foldProcess_long ps st2, h4,
    longFold_text_mem ps st.long x]

theorem MemoryCoordinator.createDaily_long (ext : Externals)
    (st : CoordinatorState) (ps : List MemoryPacket) :
    (MemoryCoordinator.createDailySummaryAndScheduleEvents ext st ps).long =
      ps.foldl
        (fun l p =>
          if (8 : ℚ)/10 ≤ p.salience then LongTermMemory.reinforce l p else l)
        st.long := by
  obtain ⟨st2, -, -, -, h4, heq⟩ :=
    MemoryCoordinator.createDaily_eq_fold ext st ps
  rw [heq, MemoryCoordinator.foldProcess_long ps st2, h4]

theorem MemoryCoordinator.dream_fields (st : CoordinatorState) :
    (MemoryCoordinator.initiateDreamCycle st).short = st.short ∧
    (MemoryCoordinator.initiateDreamCycle st).archive = st.archive ∧
    (MemoryCoordinator.initiateDreamCycle st).long = st.long ∧
    (MemoryCoordinator.initiateDreamCycle st).mid = st.mid := by
  unfold MemoryCoordinator.initiateDreamCycle
  cases hls : st.lastSummary with
  | none => exact ⟨rfl, rfl, rfl, rfl⟩
  | some s => by_cases h : s = "" <;> simp [h]

theorem MemoryCoordinator.consolidate_anatomy (ext : Externals)
    (st : CoordinatorState) :
    (MemoryCoordinator.consolidate ext st).short =
      (ShortTermMemory.prune ext.now st.short).2 ∧
    (∀ p ∈ (ShortTermMemory.prune ext.now st.short).1,
      p ∈ (MemoryCoordinator.consolidate ext st).archive) ∧
    ((ShortTermMemory.prune ext.now st.short).1 ≠ [] →
      (MemoryCoordinator.consolidate ext st).long =
        (LongTermMemory.decay
          (MemoryCoordinator.createDailySummaryAndScheduleEvents ext
            { st with short := (ShortTermMemory.prune ext.now st.short).2 }
            (ShortTermMemory.prune ext.now st.short).1).long (1/5)).1) := by
  set pr := ShortTermMemory.prune ext.now st.short with hpr
  set st1 : CoordinatorState := { st with short := pr.2 } with hst1
  set st2 := if pr.1 = [] then st1
    else MemoryCoordinator.createDailySummaryAndScheduleEvents ext st1 pr.1
    with hst2
  set sw := MidTermMemory.sweep ext.now st2.mid with hsw
  set st3 : CoordinatorState := { st2 with
    mid := sw.2
    archive := if sw.1 = [] then st2.archive
      else ArchiveMemory.store st2.archive sw.1 } with hst3
  set dc := LongTermMemory.decay st3.long (1/5) with hdc
  set st4 : CoordinatorState := { st3 with
    long := dc.1
    archive := if dc.2 = [] then st3.archive
      else ArchiveMemory.store st3.archive dc.2 } with hst4
  have hcons : MemoryCoordinator.consolidate ext st =
      MemoryCoordinator.initiateDreamCycle st4 := rfl
  have hst2short : st2.short = pr.2 := by
    rw [hst2]
    by_cases h : pr.1 = []
    · rw [if_pos h]
    · rw [if_neg h, MemoryCoordinator.createDaily_short]
  refine ⟨?_, ?_, ?_⟩
  · rw [hcons, (MemoryCoordinator.dream_fields st4).1]
    show st2.short = pr.2
    exact hst2short
  · intro p hp
    have hne : pr.1 ≠ [] := List.ne_nil_of_mem hp
    have harch2 : st2.archive = st.archive ++ pr.1 := by
      rw [hst2, if_neg hne, MemoryCoordinator.createDaily_archive]
    have hp2 : p ∈ st2.archive := by
      rw [harch2]
      exact List.mem_append_right _ hp
    have hp3 : p ∈ st3.archive := by
      show p ∈ (if sw.1 = [] then st2.archive
        else ArchiveMemory.store st2.archive sw.1)
      by_cases h : sw.1 = []
      · rw [if_pos h]; exact hp2
      · rw [if_neg h]; exact List.mem_append_left _ hp2
    have hp4 : p ∈ st4.archive := by
      show p ∈ (if dc.2 = [] then st3.archive
        else ArchiveMemory.store st3.archive dc.2)
      by_cases h : dc.2 = []
      · rw [if_pos h]; exact hp3
      · rw [if_neg h]; exact List.mem_append_left _ hp3
    rw [hcons, (MemoryCoordinator.dream_fields st4).2.1]
    exact hp4
  · intro hne
    rw [hcons, (MemoryCoordinator.dream_fields st4).2.2.1]
    show dc.1 = _
    rw [hdc]
    show (LongTermMemory.decay st2.long (1/5)).1 = _
    rw [hst2, if_neg hne]

/-! ## C2 — consolidation fate of pruned Short-Term packets -/

/-- C2: during `consolidate`, every packet pruned from Short-Term (timestamp
older than 24 hours) is removed from Short-Term and copied into Archive
unconditionally, and the daily-summary step reinforces a pruned packet into
Long-Term exactly when its own salience is `>= 0.8`; in the scenario of one
Short-Term packet from 25 hours ago with salience `0.9`, after
`consolidate()` Long-Term contains an entry with that text, Archive contains
a copy of the packet, and Short-Term no longer contains it. -/
theorem C2_consolidate_prune_fate (ext : Externals) (st : CoordinatorState) :
    (∀ p ∈ (ShortTermMemory.prune ext.now st.short).1,
      p ∉ (MemoryCoordinator.consolidate ext st).short) ∧
    (∀ p ∈ (ShortTermMemory.prune ext.now st.short).1,
      p ∈ (MemoryCoordinator.consolidate ext st).archive) ∧
    (∀ (s : CoordinatorState) (ps : List MemoryPacket) (x : String),
      x ∈ (MemoryCoordinator.createDailySummaryAndScheduleEvents ext
          s ps).long.map MemoryPacket.text ↔
        x ∈ s.long.map MemoryPacket.text ∨
          ∃ p ∈ ps, (8 : ℚ)/10 ≤ p.salience ∧ p.text = x) ∧
    (st.short = [alexPacket ext.now] → st.long = [] →
      "met with Alex about the project" ∈
          (MemoryCoordinator.consolidate ext st).long.map MemoryPacket.text ∧
      alexPacket ext.now ∈ (MemoryCoordinator.consolidate ext st).archive ∧
      (MemoryCoordinator.consolidate ext st).short = []) := by
  obtain ⟨hshort, harch, hlongeq⟩ :=
    MemoryCoordinator.consolidate_anatomy ext st
  refine ⟨?_, harch,
    fun s ps x => MemoryCoordinator.createDaily_long_mem ext s ps x, ?_⟩
  · intro p hp hmem
    rw [hshort] at hmem
    have hne : (ShortTermMemory.prune ext.now st.short).1 ≠ [] :=
      List.ne_nil_of_mem hp
    rw [ShortTermMemory.prune_snd_of_ne ext.now st.short hne] at hmem
    have h2 : ext.now - 24 * 3600 ≤ p.timestamp := by
      simpa using List.of_mem_filter hmem
    have h1 : p.timestamp < ext.now - 24 * 3600 := by
      rw [ShortTermMemory.prune_fst] at hp
      simpa using List.of_mem_filter hp
    linarith
  · intro hs hl
    have hts : (alexPacket ext.now).timestamp < ext.now - 24 * 3600 := by
      show ext.now - 25 * 3600 < ext.now - 24 * 3600
      have h36 : (24 : ℚ) * 3600 < 25 * 3600 := by norm_num
      linarith
    have hfst : (ShortTermMemory.prune ext.now st.short).1 =
        [alexPacket ext.now] := by
      rw [ShortTermMemory.prune_fst, hs]
      simp only [List.filter_cons, List.filter_nil]
      rw [if_pos (by simp only [decide_eq_true_eq]; exact hts)]
    have hne : (ShortTermMemory.prune ext.now st.short).1 ≠ [] := by
      rw [hfst]
      simp
    refine ⟨?_, harch _ (by rw [hfst]; exact List.mem_singleton_self _), ?_⟩
    · rw [hlongeq hne]
      have hlong2 : (MemoryCoordinator.createDailySummaryAndScheduleEvents ext
          { st with short := (ShortTermMemory.prune ext.now st.short).2 }
          (ShortTermMemory.prune ext.now st.short).1).long =
          [alexPacket ext.now] := by
        rw [MemoryCoordinator.createDaily_long, hfst]
        simp only [List.foldl_cons, List.foldl_nil]
        have hsal : (8 : ℚ)/10 ≤ (alexPacket ext.now).salience := by
          show (8 : ℚ)/10 ≤ 9/10
          norm_num
        rw [if_pos hsal]
        show LongTermMemory.reinforce st.long (alexPacket ext.now) = _
        rw [hl]
        rfl
      rw [hlong2]
      have hnd : ¬ ((LongTermMemory.decayEntry
          (alexPacket ext.now)).salience < 1/5) := by
        show ¬ ((9 : ℚ)/10 * (99/100) < 1/5)
        norm_num
      rw [LongTermMemory.decay_eq_partition]
      simp only [List.map_cons, List.map_nil, List.filter_cons, List.filter_nil]
      rw [if_pos (by
        simp only [Bool.not_eq_true', decide_eq_false_iff_not]
        exact hnd)]
      simp [LongTermMemory.decayEntry, alexPacket]
    · rw [hshort, ShortTermMemory.prune_snd_of_ne ext.now st.short hne, hs]
      simp only [List.filter_cons, List.filter_nil]
      rw [if_neg (by simp only [decide_eq_true_eq]; exact not_le.mpr hts)]

theorem C2_consolidate_prune_fate_witness :
    consolidationState.short = [alexPacket extUnavailable.now] ∧
    consolidationState.long = [] ∧
    ("met with Alex about the project" ∈
        (MemoryCoordinator.consolidate extUnavailable
          consolidationState).long.map MemoryPacket.text ∧
     alexPacket extUnavailable.now ∈
        (MemoryCoordinator.consolidate extUnavailable
          consolidationState).archive ∧
     (MemoryCoordinator.consolidate extUnavailable consolidationState).short =
        []) :=
  ⟨rfl, rfl,
   (C2_consolidate_prune_fate extUnavailable consolidationState).2.2.2 rfl rfl⟩

/-! ## C8 — daily-summary step with unavailable collaborator -/

/-- C8: when the text-generation collaborator is unavailable (returns
nothing for every prompt), the daily-summary step retains the empty string
as the last daily summary, and the downstream event-extraction/scheduling
steps have no effect: the calendar and Mid-Term are unchanged.  The embedded
function is total, so the call cannot raise. -/
theorem C8_summary_collaborator_unavailable (ext : Externals)
    (st : CoordinatorState) (packets : List MemoryPacket)
    (hgen : ∀ s, ext.gen s = none) (hnull : ext.jsonDict "null" = none) :
    (MemoryCoordinator.createDailySummaryAndScheduleEvents ext st
        packets).lastSummary = some "" ∧
    (MemoryCoordinator.createDailySummaryAndScheduleEvents ext st
        packets).calendar = st.calendar ∧
    (MemoryCoordinator.createDailySummaryAndScheduleEvents ext st
        packets).mid = st.mid := by
  simp only [MemoryCoordinator.createDailySummaryAndScheduleEvents, hgen]
  simp only [pyOrStr]
  rw [hnull]
  have hp := MemoryCoordinator.foldProcess_preserves packets
    { st with lastSummary := some "" }
  exact ⟨hp.2.2.1, hp.1, hp.2.1⟩

theorem C8_summary_collaborator_unavailable_witness :
    (∀ s, extUnavailable.gen s = none) ∧
    extUnavailable.jsonDict "null" = none ∧
    ((MemoryCoordinator.createDailySummaryAndScheduleEvents extUnavailable
        emptyCoordinator [alexPacket 200000]).lastSummary = some "" ∧
     (MemoryCoordinator.createDailySummaryAndScheduleEvents extUnavailable
        emptyCoordinator [alexPacket 200000]).calendar =
       emptyCoordinator.calendar ∧
     (MemoryCoordinator.createDailySummaryAndScheduleEvents extUnavailable
        emptyCoordinator [alexPacket 200000]).mid = emptyCoordinator.mid) :=
  ⟨fun _ => rfl, rfl,
   C8_summary_collaborator_unavailable extUnavailable emptyCoordinator
     [alexPacket 200000] (fun _ => rfl) rfl⟩

/-! ## C10 — proactive-event check frame effect on Archive -/

/-- C10: `check_proactive_events` sweeps (returns and removes) every expired
Mid-Term packet — not only reminder packets — collects as reminders only
the texts starting with `"Proactive Reminder"`, and leaves the Archive tier
exactly as it was, so any swept packet not already archived never reaches
Archive. -/
theorem C10_check_proactive_frame (ext : Externals) (st : CoordinatorState)
    (hids : (st.mid.rows.map MidRow.rowId).Nodup) :
    ((MemoryCoordinator.checkProactiveEvents ext st).2.archive = st.archive) ∧
    ((MemoryCoordinator.checkProactiveEvents ext st).2.mid.rows =
      st.mid.rows.filter (fun r => decide (¬ r.expiry ≤ ext.now))) ∧
    ((MemoryCoordinator.checkProactiveEvents ext st).1.reminders =
      (((st.mid.rows.filter (fun r => decide (r.expiry ≤ ext.now))).map
          MidRow.data).filter
        (fun p => p.text.startsWith "Proactive Reminder")).map
        MemoryPacket.text) ∧
    (∀ r ∈ st.mid.rows, r.expiry ≤ ext.now →
      r ∉ (MemoryCoordinator.checkProactiveEvents ext st).2.mid.rows ∧
      (r.data ∉ st.archive →
        r.data ∉ (MemoryCoordinator.checkProactiveEvents ext st).2.archive)) := by
  have hrows : (MemoryCoordinator.checkProactiveEvents ext st).2.mid.rows =
      st.mid.rows.filter (fun r => decide (¬ r.expiry ≤ ext.now)) :=
    MidTermMemory.sweep_rows ext.now st.mid hids
  refine ⟨rfl, hrows, rfl, ?_⟩
  intro r _ hexp
  constructor
  · intro hmem
    rw [hrows] at hmem
    have hflt := List.of_mem_filter hmem
    simp only [decide_eq_true_eq] at hflt
    exact hflt hexp
  · intro hnot hmem
    exact hnot hmem

theorem C10_check_proactive_frame_witness :
    ((proactiveState.mid.rows.map MidRow.rowId).Nodup) ∧
    (((MemoryCoordinator.checkProactiveEvents extUnavailable
        proactiveState).2.archive = proactiveState.archive) ∧
     ((MemoryCoordinator.checkProactiveEvents extUnavailable
        proactiveState).2.mid.rows =
       proactiveState.mid.rows.filter
         (fun r => decide (¬ r.expiry ≤ extUnavailable.now))) ∧
     ((MemoryCoordinator.checkProactiveEvents extUnavailable
        proactiveState).1.reminders =
       (((proactiveState.mid.rows.filter
            (fun r => decide (r.expiry ≤ extUnavailable.now))).map
           MidRow.data).filter
         (fun p => p.text.startsWith "Proactive Reminder")).map
         MemoryPacket.text) ∧
     (∀ r ∈ proactiveState.mid.rows, r.expiry ≤ extUnavailable.now →
       r ∉ (MemoryCoordinator.checkProactiveEvents extUnavailable
          proactiveState).2.mid.rows ∧
       (r.data ∉ proactiveState.archive →
         r.data ∉ (MemoryCoordinator.checkProactiveEvents extUnavailable
            proactiveState).2.archive))) :=
  ⟨by simp [proactiveState, midProbe, midRowExpired, midRowAlive],
   C10_check_proactive_frame extUnavailable proactiveState
     (by simp [proactiveState, midProbe, midRowExpired, midRowAlive])⟩

/-! ## C1 — `add_packet` fan-out (amended for Python truthiness) -/

theorem ActiveMemory.mem_push_self (st : ActiveMemory) (p : MemoryPacket)
    (h : 1 ≤ st.maxlen) : p ∈ (st.push p).buffer := by
  show p ∈ (st.buffer ++ [p]).drop ((st.buffer ++ [p]).length - st.maxlen)
  have hk : (st.buffer ++ [p]).length - st.maxlen ≤ st.buffer.length := by
    simp only [List.length_append, List.length_singleton]
    omega
  rw [List.drop_append_of_le_length hk]
  simp

/-- C1 (amended): `add_packet` always writes the packet into Active Memory
and Short-Term; it writes into Mid-Term iff the packet's expiry is truthy
(set AND nonzero — the source tests `if packet.expiry:`); it reinforces into
Long-Term iff `salience >= 0.8`; in particular a packet with a nonzero
expiry and salience `0.3` is present in Active, Short-Term and Mid-Term and
leaves Long-Term untouched. -/
theorem C1_add_packet_fanout (st : CoordinatorState) (p : MemoryPacket)
    (hcap : 1 ≤ st.active.maxlen) :
    p ∈ (MemoryCoordinator.addPacket st p).active.snapshot ∧
    p ∈ (MemoryCoordinator.addPacket st p).short ∧
    ((∃ r ∈ (MemoryCoordinator.addPacket st p).mid.rows, r.data = p) ↔
      (∃ r ∈ st.mid.rows, r.data = p) ∨ pyTruthy p.expiry = true) ∧
    (p.text ∈ (MemoryCoordinator.addPacket st p).long.map MemoryPacket.text ↔
      p.text ∈ st.long.map MemoryPacket.text ∨ (8 : ℚ)/10 ≤ p.salience) ∧
    (pyTruthy p.expiry = true → p.salience = 3/10 →
      (∃ r ∈ (MemoryCoordinator.addPacket st p).mid.rows, r.data = p) ∧
      (MemoryCoordinator.addPacket st p).long = st.long) := by
  refine ⟨ActiveMemory.mem_push_self st.active p hcap, ?_, ?_, ?_, ?_⟩
  · simp [MemoryCoordinator.addPacket, ShortTermMemory.add]
  · by_cases ht : pyTruthy p.expiry
    · simp only [MemoryCoordinator.addPacket, ht, if_true, MidTermMemory.add,
        List.mem_append, List.mem_singleton, ht, or_true, iff_true]
      exact ⟨_, Or.inr rfl, rfl⟩
    · simp [MemoryCoordinator.addPacket, ht, MidTermMemory.add]
  · by_cases hs : (8 : ℚ)/10 ≤ p.salience
    · simp only [MemoryCoordinator.addPacket, hs, if_true, hs, or_true,
        iff_true, List.mem_map]
      have hmem := (LongTermMemory.reinforce_text_mem st.long p p.text).mpr
        (Or.inr rfl)
      rcases List.mem_map.mp hmem with ⟨a, ha, hat⟩
      exact ⟨a, ha, hat⟩
    · simp [MemoryCoordinator.addPacket, hs]
  · intro ht hsal
    constructor
    · simp only [MemoryCoordinator.addPacket, ht, if_true, MidTermMemory.add,
        List.mem_append, List.mem_singleton]
      exact ⟨_, Or.inr rfl, rfl⟩
    · have hns : ¬ ((8 : ℚ)/10 ≤ p.salience) := by
        rw [hsal]
        norm_num
      simp [MemoryCoordinator.addPacket, hns]

/-- C1 counterexample: the claim "written into Mid-Term if and only if the
expiry is set" fails at `expiry = 0.0`: the expiry is set (`Some`), yet
`if packet.expiry:` is false under Python truthiness, so `add_packet` on a
fresh coordinator leaves the Mid-Term table empty. -/
theorem C1_add_packet_fanout_counterexample :
    packetZeroExpiry.expiry.isSome = true ∧
    (MemoryCoordinator.addPacket emptyCoordinator packetZeroExpiry).mid.rows =
      [] := by
  refine ⟨rfl, ?_⟩
  have ht : pyTruthy packetZeroExpiry.expiry = false := by
    show pyTruthy (some 0) = false
    simp [pyTruthy]
  simp [MemoryCoordinator.addPacket, ht, emptyCoordinator]

theorem C1_add_packet_fanout_witness :
    1 ≤ emptyCoordinator.active.maxlen ∧
    pyTruthy packetMidOnly.expiry = true ∧
    packetMidOnly.salience = 3/10 ∧
    (packetMidOnly ∈ (MemoryCoordinator.addPacket emptyCoordinator
        packetMidOnly).active.snapshot ∧
     packetMidOnly ∈ (MemoryCoordinator.addPacket emptyCoordinator
        packetMidOnly).short) ∧
    ((∃ r ∈ (MemoryCoordinator.addPacket emptyCoordinator
        packetMidOnly).mid.rows, r.data = packetMidOnly) ∧
     (MemoryCoordinator.addPacket emptyCoordinator packetMidOnly).long =
       emptyCoordinator.long) := by
  have hcap : 1 ≤ emptyCoordinator.active.maxlen := by
    norm_num [emptyCoordinator, ActiveMemory.init]
  have ht : pyTruthy packetMidOnly.expiry = true := by
    norm_num [packetMidOnly, pyTruthy]
  have h := C1_add_packet_fanout emptyCoordinator packetMidOnly hcap
  exact ⟨hcap, ht, rfl, ⟨h.1, h.2.1⟩, h.2.2.2.2 ht rfl⟩
